import Mathlib

/-!
# A model of the NFTagent contract

The contract (Solidity ^0.8.0, `NFTagent is ERC721, ERC721Burnable, EIP712`) keeps,
besides the ERC721 ownership records of its base, an immutable `owner`, a `totalSupply`
counter, an `idFloor` threshold, a `tokenURIs` mapping and a `revokedIds` mapping.
We model addresses, token ids, wei amounts and signatures as `Nat`, reason strings as
`String`, and a reverting call as `Except.error reason` (a revert rolls back every state
change of the call, so an erroring operation simply yields no state).

The ERC721 base (OpenZeppelin) is not part of the repository; the spec describes its
contribution as the per-identifier *claimed* state and the holder used to gate `burn`.
We model it as the finite set `minted` of currently claimed ids plus a `holder` map
(`Modelled from the spec` where noted).  Signature recovery (`ECDSA.recover` composed
with the EIP-712 `_hash`) is a pure function of the signed terms and the signature; we
abstract it as a function parameter `recover : weiPrice → id → uri → signature → address`
(a malformed-signature revert inside `ECDSA.recover` is folded into the recovered
address differing from `owner`, which yields the same rejection of the call).

Solidity 0.8 checked arithmetic reverts on overflow/underflow; the `totalSupply`
updates carry the corresponding guards.
-/

namespace NFTagent

/-- The four events declared by the contract. -/
inductive Event where
  | IdRevoked : Nat → Event
  | IdFloorSet : Nat → Event
  | Receipt : Nat → Event
  | Withdrawal : Nat → Event
  deriving DecidableEq, Repr

/-- The contract state: `owner`, `totalSupply`, `idFloor`, the `tokenURIs` and
`revokedIds` mappings (total maps with Solidity's zero defaults), the ERC721 base's
claimed set and holder map, the ether balance, and the emitted-event log. -/
structure State where
  owner : Nat
  totalSupply : Nat
  idFloor : Nat
  tokenURIs : Nat → String
  revokedIds : Nat → Bool
  minted : Finset Nat
  holder : Nat → Nat
  balance : Nat
  events : List Event

/-- Point update of a total mapping, as Solidity's `m[k] = v`. -/
def upd {β : Type} (f : Nat → β) (k : Nat) (v : β) : Nat → β :=
  fun i => if i = k then v else f i

/-- Abstract signature recovery over the signed terms `(weiPrice, id, uri)` and a
signature: the composition of the contract's `_hash` with `ECDSA.recover`. -/
abbrev Recover := Nat → Nat → String → Nat → Nat

/-- Modelled from the spec: the ERC721 base's `_exists(id)` — an identifier is
*claimed* iff it is in the claimed set (spec §3: "claimed: true once an identifier has
been successfully issued and not yet released"). -/
def _exists (s : State) (id : Nat) : Bool := decide (id ∈ s.minted)

/-- `vacant(id)`: reverts with a distinguishing reason if the id is minted, below the
floor, or revoked, in that order; otherwise returns `true` (source lines 97–102). -/
def vacant (s : State) (id : Nat) : Except String Bool :=
  if _exists s id then .error "tokenId already minted"
  else if id < s.idFloor then .error "tokenId below floor"
  else if s.revokedIds id then .error "tokenId revoked or burnt"
  else .ok true

/-- `mintable(weiPrice, id, uri, signature)`: requires `vacant(id)` and that the
recovered signer is `owner` (source lines 86–90). -/
def mintable (recover : Recover) (s : State) (weiPrice id : Nat) (uri : String)
    (signature : Nat) : Except String Bool :=
  match vacant s id with
  | .error e => .error e
  | .ok _ =>
    if s.owner = recover weiPrice id uri signature then .ok true
    else .error "signature invalid or signer unauthorized"

/-- `_setTokenURI(id, uri)`: requires a non-empty uri, then records it
(source lines 165–168). -/
def _setTokenURI (s : State) (id : Nat) (uri : String) : Except String State :=
  if uri.length = 0 then .error "tokenURI cannot be empty"
  else .ok { s with tokenURIs := upd s.tokenURIs id uri }

/-- Modelled from the spec: the ERC721 base's `_safeMint(recipient, id)` marks `id`
claimed by `recipient` (spec §4.3: "transfers ownership of identifier id to recipient,
... marks id claimed"); the base refuses to claim an already claimed id (spec §1:
"each identifier is claimed at most once"). -/
def _safeMint (s : State) (recipient id : Nat) : Except String State :=
  if _exists s id then .error "identifier already claimed"
  else .ok { s with minted := insert id s.minted, holder := upd s.holder id recipient }

/-- `_mint(recipient, id, uri)`: `_safeMint`, then `_setTokenURI`, then
`totalSupply += 1` (checked addition) — source lines 144–148. -/
def _mint (s : State) (recipient id : Nat) (uri : String) : Except String State :=
  match _safeMint s recipient id with
  | .error e => .error e
  | .ok s1 =>
    match _setTokenURI s1 id uri with
    | .error e => .error e
    | .ok s2 =>
      if s2.totalSupply + 1 < 2 ^ 256 then .ok { s2 with totalSupply := s2.totalSupply + 1 }
      else .error "arithmetic overflow"

/-- `mintAuthorized(recipient, id, uri)`: owner-only direct issuance
(source lines 60–64). -/
def mintAuthorized (s : State) (caller recipient id : Nat) (uri : String) :
    Except String State :=
  if caller ≠ s.owner then .error "unauthorized to mint"
  else
    match vacant s id with
    | .error e => .error e
    | .ok _ => _mint s recipient id uri

/-- `mint(id, uri, signature)` (payable): requires `mintable(msg.value, id, uri,
signature)`, then mints to the caller; the attached value joins the balance of the
successful call (source lines 73–76). -/
def mint (recover : Recover) (s : State) (caller msgValue id : Nat) (uri : String)
    (signature : Nat) : Except String State :=
  match mintable recover s msgValue id uri signature with
  | .error e => .error e
  | .ok _ => _mint { s with balance := s.balance + msgValue } caller id uri

/-- `revokeId(id)`: owner-only; requires `vacant(id)`; sets the revoked flag.
The source's `IdRevoked(id);` (line 112) lacks the `emit` keyword, so no event is
appended to the log. -/
def revokeId (s : State) (caller id : Nat) : Except String State :=
  if caller ≠ s.owner then .error "unauthorized to revoke id"
  else
    match vacant s id with
    | .error e => .error e
    | .ok _ => .ok { s with revokedIds := upd s.revokedIds id true }

/-- `setIdFloor(floor)`: owner-only; requires `floor > idFloor`; updates the floor.
The source's `IdFloorSet(idFloor);` (line 123) lacks the `emit` keyword, so no event
is appended to the log. -/
def setIdFloor (s : State) (caller floor : Nat) : Except String State :=
  if caller ≠ s.owner then .error "unauthorized to set idFloor"
  else if s.idFloor < floor then .ok { s with idFloor := floor }
  else .error "must exceed current floor"

/-- `tokenURI(id)`: the overriding implementation returns the mapping entry directly
(the empty string when absent) and can never revert (source lines 130–132). -/
def tokenURI (s : State) (id : Nat) : String := s.tokenURIs id

/-- Modelled from the spec: the ERC721 base's `_burn` (the `super._burn(id)` call)
clears the claimed flag and the holder of an existing token (spec §4.2 `release`:
"clears claimed flag"); it reverts on a nonexistent token. -/
def superBurn (s : State) (id : Nat) : Except String State :=
  if _exists s id then
    .ok { s with minted := s.minted.erase id, holder := upd s.holder id 0 }
  else .error "nonexistent token"

/-- `_burn(id)`: `super._burn`, delete the uri, set the revoked flag, then
`totalSupply -= 1` (checked subtraction) — source lines 173–178. -/
def _burn (s : State) (id : Nat) : Except String State :=
  match superBurn s id with
  | .error e => .error e
  | .ok s1 =>
    let s2 := { s1 with tokenURIs := upd s1.tokenURIs id "",
                        revokedIds := upd s1.revokedIds id true }
    if s2.totalSupply = 0 then .error "arithmetic underflow"
    else .ok { s2 with totalSupply := s2.totalSupply - 1 }

/-- Modelled from the spec: `ERC721Burnable.burn(id)` is "ownership-gated (only the
current holder of id, enforced by the surrounding ownership component)" (spec §4.3),
then invokes the contract's `_burn`. -/
def burn (s : State) (caller id : Nat) : Except String State :=
  if _exists s id && decide (s.holder id = caller) then _burn s id
  else .error "caller is not owner nor approved"

/-- `withdraw()`: owner-only; sends the whole balance to the caller via a low-level
call whose success is the environment's to decide (parameter `transferOk`); requires
success, then emits `Withdrawal(balance)` (source lines 46–52). -/
def withdraw (s : State) (caller : Nat) (transferOk : Bool) : Except String State :=
  if caller ≠ s.owner then .error "unauthorized to withdraw"
  else if transferOk then
    .ok { s with balance := 0, events := s.events ++ [Event.Withdrawal s.balance] }
  else .error "transfer failed"

/-- `receive()`: accepts any incoming value and emits `Receipt(msg.value)`
(source lines 42–44). -/
def receiveValue (s : State) (v : Nat) : Except String State :=
  .ok { s with balance := s.balance + v, events := s.events ++ [Event.Receipt v] }

/-- The state after deployment by `deployer`: `owner` is the message sender, counters
at zero, mappings at Solidity defaults, no tokens, no events. -/
def initState (deployer : Nat) : State :=
  { owner := deployer, totalSupply := 0, idFloor := 0,
    tokenURIs := fun _ => "", revokedIds := fun _ => false,
    minted := ∅, holder := fun _ => 0, balance := 0, events := [] }

/-- One external call to the contract, with its message sender. -/
inductive Op where
  | opReceive (v : Nat)
  | opWithdraw (caller : Nat) (transferOk : Bool)
  | opMintAuthorized (caller recipient id : Nat) (uri : String)
  | opMint (caller msgValue id : Nat) (uri : String) (signature : Nat)
  | opRevokeId (caller id : Nat)
  | opSetIdFloor (caller floor : Nat)
  | opBurn (caller id : Nat)

/-- The effect of one external call, `Except.error reason` when it reverts. -/
def step (recover : Recover) (s : State) : Op → Except String State
  | .opReceive v => receiveValue s v
  | .opWithdraw caller transferOk => withdraw s caller transferOk
  | .opMintAuthorized caller recipient id uri => mintAuthorized s caller recipient id uri
  | .opMint caller msgValue id uri signature => mint recover s caller msgValue id uri signature
  | .opRevokeId caller id => revokeId s caller id
  | .opSetIdFloor caller floor => setIdFloor s caller floor
  | .opBurn caller id => burn s caller id

/-- The state after one external call: a reverted call leaves the state unchanged. -/
def stepOk (recover : Recover) (s : State) (op : Op) : State :=
  match step recover s op with
  | .ok s1 => s1
  | .error _ => s

/-- The state after a sequence of external calls, reverted calls having no effect. -/
def run (recover : Recover) (s : State) (ops : List Op) : State :=
  ops.foldl (stepOk recover) s

/-- A concrete recovery function for witnesses: every signature recovers address 1. -/
def recover1 : Recover := fun _ _ _ _ => 1

/-- The state invariant: the supply counter equals the number of claimed ids, and
an unclaimed id has the empty uri recorded. -/
def Inv (s : State) : Prop :=
  s.totalSupply = s.minted.card ∧ ∀ id, id ∉ s.minted → s.tokenURIs id = ""

/-- A revoked, unclaimed id with the empty uri: this never changes again. -/
def Dead (s : State) (id : Nat) : Prop :=
  s.revokedIds id = true ∧ id ∉ s.minted ∧ s.tokenURIs id = ""

/-! ## Characterization lemmas for the single operations -/

theorem vacant_iff (s : State) (id : Nat) :
    vacant s id = .ok true ↔ (id ∉ s.minted ∧ s.revokedIds id = false ∧ s.idFloor ≤ id) := by
  unfold vacant _exists
  by_cases h1 : id ∈ s.minted <;> by_cases h2 : id < s.idFloor <;>
    by_cases h3 : s.revokedIds id
  all_goals simp [h1, h2, h3]
  all_goals omega

theorem vacant_err_minted {s : State} {id : Nat} (h : id ∈ s.minted) :
    vacant s id = .error "tokenId already minted" := by
  unfold vacant _exists
  simp [h]

theorem vacant_err_floor {s : State} {id : Nat} (h1 : id ∉ s.minted) (h2 : id < s.idFloor) :
    vacant s id = .error "tokenId below floor" := by
  unfold vacant _exists
  simp [h1, h2]

theorem vacant_err_revoked {s : State} {id : Nat} (h1 : id ∉ s.minted)
    (h2 : s.idFloor ≤ id) (h3 : s.revokedIds id = true) :
    vacant s id = .error "tokenId revoked or burnt" := by
  unfold vacant _exists
  simp [h1, h3]
  omega

theorem vacant_ok_val {s : State} {id : Nat} {b : Bool} (h : vacant s id = .ok b) :
    b = true := by
  unfold vacant at h
  split at h
  · injection h
  · split at h
    · injection h
    · split at h
      · injection h
      · injection h with h
        exact h.symm

theorem vacant_err_of_revoked {s : State} {id : Nat} (h : s.revokedIds id = true) :
    ∃ e, vacant s id = .error e := by
  by_cases h1 : id ∈ s.minted
  · exact ⟨_, vacant_err_minted h1⟩
  · by_cases h2 : id < s.idFloor
    · exact ⟨_, vacant_err_floor h1 h2⟩
    · exact ⟨_, vacant_err_revoked h1 (by omega) h⟩

theorem _safeMint_ok {s : State} {r id : Nat} {s1 : State}
    (h : _safeMint s r id = .ok s1) :
    id ∉ s.minted ∧
    s1 = { s with minted := insert id s.minted, holder := upd s.holder id r } := by
  unfold _safeMint _exists at h
  split at h
  · injection h
  next hc =>
    injection h with h
    exact ⟨by simpa using hc, h.symm⟩

theorem _setTokenURI_ok {s : State} {id : Nat} {uri : String} {s1 : State}
    (h : _setTokenURI s id uri = .ok s1) :
    uri ≠ "" ∧ s1 = { s with tokenURIs := upd s.tokenURIs id uri } := by
  unfold _setTokenURI at h
  split at h
  · injection h
  next hc =>
    injection h with h
    exact ⟨fun he => hc (by simp [he]), h.symm⟩

theorem _mint_ok {s : State} {r id : Nat} {uri : String} {s1 : State}
    (h : _mint s r id uri = .ok s1) :
    id ∉ s.minted ∧ uri ≠ "" ∧ s.totalSupply + 1 < 2 ^ 256 ∧
    s1 = { s with minted := insert id s.minted, holder := upd s.holder id r,
                  tokenURIs := upd s.tokenURIs id uri,
                  totalSupply := s.totalSupply + 1 } := by
  unfold _mint at h
  split at h
  next e heq => injection h
  next sa heq =>
    obtain ⟨hna, hsa⟩ := _safeMint_ok heq
    split at h
    next e heq2 => injection h
    next sb heq2 =>
      obtain ⟨hne, hsb⟩ := _setTokenURI_ok heq2
      subst hsa
      subst hsb
      split at h
      next hlt =>
        injection h with h
        exact ⟨hna, hne, hlt, h.symm⟩
      next hlt => injection h

theorem mintable_ok {recover : Recover} {s : State} {weiPrice id : Nat} {uri : String}
    {signature : Nat} {b : Bool}
    (h : mintable recover s weiPrice id uri signature = .ok b) :
    b = true ∧ vacant s id = .ok true ∧ s.owner = recover weiPrice id uri signature := by
  unfold mintable at h
  split at h
  next e heq => injection h
  next bb heq =>
    have hbb := vacant_ok_val heq
    subst hbb
    split at h
    next hs =>
      injection h with h
      exact ⟨h.symm, heq, hs⟩
    next hs => injection h

theorem mintable_err_of_vacant {recover : Recover} {s : State} {weiPrice id : Nat}
    {uri : String} {signature : Nat} {e : String} (h : vacant s id = .error e) :
    mintable recover s weiPrice id uri signature = .error e := by
  unfold mintable
  rw [h]

theorem mint_err_of_vacant {recover : Recover} {s : State} {caller msgValue id : Nat}
    {uri : String} {signature : Nat} {e : String} (h : vacant s id = .error e) :
    mint recover s caller msgValue id uri signature = .error e := by
  unfold mint
  rw [mintable_err_of_vacant h]

theorem mint_ok {recover : Recover} {s : State} {caller msgValue id : Nat} {uri : String}
    {signature : Nat} {s1 : State}
    (h : mint recover s caller msgValue id uri signature = .ok s1) :
    mintable recover s msgValue id uri signature = .ok true ∧
    _mint { s with balance := s.balance + msgValue } caller id uri = .ok s1 := by
  unfold mint at h
  split at h
  next e heq => injection h
  next bb heq =>
    have hbb := (mintable_ok heq).1
    subst hbb
    exact ⟨heq, h⟩

theorem mintAuthorized_ok {s : State} {caller recipient id : Nat} {uri : String} {s1 : State}
    (h : mintAuthorized s caller recipient id uri = .ok s1) :
    caller = s.owner ∧ vacant s id = .ok true ∧ _mint s recipient id uri = .ok s1 := by
  unfold mintAuthorized at h
  split at h
  next hne => injection h
  next hc =>
    split at h
    next e heq => injection h
    next bb heq =>
      have hbb := vacant_ok_val heq
      subst hbb
      exact ⟨by omega, heq, h⟩

theorem revokeId_ok {s : State} {caller id : Nat} {s1 : State}
    (h : revokeId s caller id = .ok s1) :
    caller = s.owner ∧ vacant s id = .ok true ∧
    s1 = { s with revokedIds := upd s.revokedIds id true } := by
  unfold revokeId at h
  split at h
  next hne => injection h
  next hc =>
    split at h
    next e heq => injection h
    next bb heq =>
      have hbb := vacant_ok_val heq
      subst hbb
      injection h with h
      exact ⟨by omega, heq, h.symm⟩

theorem setIdFloor_ok {s : State} {caller floor : Nat} {s1 : State}
    (h : setIdFloor s caller floor = .ok s1) :
    caller = s.owner ∧ s.idFloor < floor ∧ s1 = { s with idFloor := floor } := by
  unfold setIdFloor at h
  split at h
  · injection h
  · split at h
    · injection h with h
      exact ⟨by omega, by assumption, h.symm⟩
    · injection h

theorem _burn_ok {s : State} {id : Nat} {s1 : State} (h : _burn s id = .ok s1) :
    id ∈ s.minted ∧ s.totalSupply ≠ 0 ∧
    s1 = { s with minted := s.minted.erase id, holder := upd s.holder id 0,
                  tokenURIs := upd s.tokenURIs id "",
                  revokedIds := upd s.revokedIds id true,
                  totalSupply := s.totalSupply - 1 } := by
  by_cases h1 : id ∈ s.minted
  · by_cases h2 : s.totalSupply = 0
    · simp [_burn, superBurn, _exists, h1, h2] at h
    · simp [_burn, superBurn, _exists, h1, h2] at h
      exact ⟨h1, h2, h.symm⟩
  · simp [_burn, superBurn, _exists, h1] at h

theorem burn_ok {s : State} {caller id : Nat} {s1 : State} (h : burn s caller id = .ok s1) :
    id ∈ s.minted ∧ s.holder id = caller ∧ _burn s id = .ok s1 := by
  unfold burn _exists at h
  split at h
  · next hc =>
    simp only [Bool.and_eq_true, decide_eq_true_eq] at hc
    exact ⟨hc.1, hc.2, h⟩
  · injection h

theorem withdraw_ok {s : State} {caller : Nat} {transferOk : Bool} {s1 : State}
    (h : withdraw s caller transferOk = .ok s1) :
    caller = s.owner ∧ transferOk = true ∧
    s1 = { s with balance := 0, events := s.events ++ [Event.Withdrawal s.balance] } := by
  unfold withdraw at h
  split at h
  · injection h
  · split at h
    · injection h with h
      exact ⟨by omega, by assumption, h.symm⟩
    · injection h

theorem receiveValue_ok {s : State} {v : Nat} {s1 : State} (h : receiveValue s v = .ok s1) :
    s1 = { s with balance := s.balance + v, events := s.events ++ [Event.Receipt v] } := by
  unfold receiveValue at h
  injection h with h
  exact h.symm

theorem stepOk_of_error {recover : Recover} {s : State} {op : Op} {e : String}
    (h : step recover s op = .error e) : stepOk recover s op = s := by
  unfold stepOk
  rw [h]

theorem stepOk_of_ok {recover : Recover} {s : State} {op : Op} {s1 : State}
    (h : step recover s op = .ok s1) : stepOk recover s op = s1 := by
  unfold stepOk
  rw [h]

/-! ## Invariants along runs -/

theorem initState_inv (d : Nat) : Inv (initState d) :=
  ⟨rfl, fun _ _ => rfl⟩

theorem step_inv {recover : Recover} {s : State} {op : Op} {s1 : State}
    (h : step recover s op = .ok s1) (hi : Inv s) : Inv s1 := by
  obtain ⟨hsup, huri⟩ := hi
  cases op with
  | opReceive v =>
    simp only [step] at h
    obtain rfl := receiveValue_ok h
    exact ⟨hsup, huri⟩
  | opWithdraw c t =>
    simp only [step] at h
    obtain ⟨-, -, rfl⟩ := withdraw_ok h
    exact ⟨hsup, huri⟩
  | opRevokeId c tid =>
    simp only [step] at h
    obtain ⟨-, -, rfl⟩ := revokeId_ok h
    exact ⟨hsup, huri⟩
  | opSetIdFloor c f =>
    simp only [step] at h
    obtain ⟨-, -, rfl⟩ := setIdFloor_ok h
    exact ⟨hsup, huri⟩
  | opMintAuthorized c r tid uri =>
    simp only [step] at h
    obtain ⟨-, hv, hm⟩ := mintAuthorized_ok h
    obtain ⟨hnm, hu, -, rfl⟩ := _mint_ok hm
    constructor
    · show s.totalSupply + 1 = (insert tid s.minted).card
      rw [Finset.card_insert_of_not_mem hnm, hsup]
    · intro j hj
      replace hj : ¬(j = tid ∨ j ∈ s.minted) := fun hx => hj (Finset.mem_insert.mpr hx)
      push_neg at hj
      show upd s.tokenURIs tid uri j = ""
      unfold upd
      rw [if_neg hj.1]
      exact huri j hj.2
  | opMint c v tid uri sig =>
    simp only [step] at h
    obtain ⟨-, hm⟩ := mint_ok h
    obtain ⟨hnm, hu, -, rfl⟩ := _mint_ok hm
    constructor
    · show s.totalSupply + 1 = (insert tid s.minted).card
      rw [Finset.card_insert_of_not_mem hnm, hsup]
    · intro j hj
      replace hj : ¬(j = tid ∨ j ∈ s.minted) := fun hx => hj (Finset.mem_insert.mpr hx)
      push_neg at hj
      show upd s.tokenURIs tid uri j = ""
      unfold upd
      rw [if_neg hj.1]
      exact huri j hj.2
  | opBurn c tid =>
    simp only [step] at h
    obtain ⟨-, -, hb⟩ := burn_ok h
    obtain ⟨hmem, hne, rfl⟩ := _burn_ok hb
    constructor
    · show s.totalSupply - 1 = (s.minted.erase tid).card
      rw [Finset.card_erase_of_mem hmem, hsup]
    · intro j hj
      show upd s.tokenURIs tid "" j = ""
      unfold upd
      split
      · rfl
      next hne2 =>
        apply huri
        intro hjm
        exact hj (Finset.mem_erase.mpr ⟨hne2, hjm⟩)

theorem stepOk_inv (recover : Recover) (s : State) (op : Op) (hi : Inv s) :
    Inv (stepOk recover s op) := by
  unfold stepOk
  cases hstep : step recover s op with
  | error e => exact hi
  | ok s1 => exact step_inv hstep hi

theorem run_inv (recover : Recover) (ops : List Op) (s : State) (hi : Inv s) :
    Inv (run recover s ops) := by
  induction ops generalizing s with
  | nil => exact hi
  | cons op ops ih => exact ih _ (stepOk_inv recover s op hi)

/-- Revocation is one-way for every single successful call. -/
theorem step_revoked_mono {recover : Recover} {s : State} {op : Op} {s1 : State}
    (h : step recover s op = .ok s1) (id : Nat) (hr : s.revokedIds id = true) :
    s1.revokedIds id = true := by
  cases op with
  | opReceive v =>
    simp only [step] at h
    obtain rfl := receiveValue_ok h
    exact hr
  | opWithdraw c t =>
    simp only [step] at h
    obtain ⟨-, -, rfl⟩ := withdraw_ok h
    exact hr
  | opSetIdFloor c f =>
    simp only [step] at h
    obtain ⟨-, -, rfl⟩ := setIdFloor_ok h
    exact hr
  | opMintAuthorized c r tid uri =>
    simp only [step] at h
    obtain ⟨-, -, hm⟩ := mintAuthorized_ok h
    obtain ⟨-, -, -, rfl⟩ := _mint_ok hm
    exact hr
  | opMint c v tid uri sig =>
    simp only [step] at h
    obtain ⟨-, hm⟩ := mint_ok h
    obtain ⟨-, -, -, rfl⟩ := _mint_ok hm
    exact hr
  | opRevokeId c tid =>
    simp only [step] at h
    obtain ⟨-, -, rfl⟩ := revokeId_ok h
    show upd s.revokedIds tid true id = true
    unfold upd
    split
    · rfl
    · exact hr
  | opBurn c tid =>
    simp only [step] at h
    obtain ⟨-, -, hb⟩ := burn_ok h
    obtain ⟨-, -, rfl⟩ := _burn_ok hb
    show upd s.revokedIds tid true id = true
    unfold upd
    split
    · rfl
    · exact hr

theorem stepOk_revoked_mono (recover : Recover) (s : State) (op : Op) (id : Nat)
    (hr : s.revokedIds id = true) : (stepOk recover s op).revokedIds id = true := by
  unfold stepOk
  cases hstep : step recover s op with
  | error e => exact hr
  | ok s1 => exact step_revoked_mono hstep id hr

theorem run_revoked_mono (recover : Recover) (ops : List Op) (s : State) (id : Nat)
    (hr : s.revokedIds id = true) : (run recover s ops).revokedIds id = true := by
  induction ops generalizing s with
  | nil => exact hr
  | cons op ops ih => exact ih _ (stepOk_revoked_mono recover s op id hr)

/-- The floor never decreases under any single successful call. -/
theorem step_idFloor_mono {recover : Recover} {s : State} {op : Op} {s1 : State}
    (h : step recover s op = .ok s1) : s.idFloor ≤ s1.idFloor := by
  cases op with
  | opReceive v =>
    simp only [step] at h
    obtain rfl := receiveValue_ok h
    exact le_refl _
  | opWithdraw c t =>
    simp only [step] at h
    obtain ⟨-, -, rfl⟩ := withdraw_ok h
    exact le_refl _
  | opSetIdFloor c f =>
    simp only [step] at h
    obtain ⟨-, hlt, rfl⟩ := setIdFloor_ok h
    exact le_of_lt hlt
  | opMintAuthorized c r tid uri =>
    simp only [step] at h
    obtain ⟨-, -, hm⟩ := mintAuthorized_ok h
    obtain ⟨-, -, -, rfl⟩ := _mint_ok hm
    exact le_refl _
  | opMint c v tid uri sig =>
    simp only [step] at h
    obtain ⟨-, hm⟩ := mint_ok h
    obtain ⟨-, -, -, rfl⟩ := _mint_ok hm
    exact le_refl _
  | opRevokeId c tid =>
    simp only [step] at h
    obtain ⟨-, -, rfl⟩ := revokeId_ok h
    exact le_refl _
  | opBurn c tid =>
    simp only [step] at h
    obtain ⟨-, -, hb⟩ := burn_ok h
    obtain ⟨-, -, rfl⟩ := _burn_ok hb
    exact le_refl _

theorem stepOk_idFloor_mono (recover : Recover) (s : State) (op : Op) :
    s.idFloor ≤ (stepOk recover s op).idFloor := by
  unfold stepOk
  cases hstep : step recover s op with
  | error e => exact le_refl _
  | ok s1 => exact step_idFloor_mono hstep

theorem step_dead {recover : Recover} {s : State} {op : Op} {s1 : State}
    (h : step recover s op = .ok s1) (id : Nat) (hd : Dead s id) : Dead s1 id := by
  obtain ⟨hr, hnm, hu⟩ := hd
  cases op with
  | opReceive v =>
    simp only [step] at h
    obtain rfl := receiveValue_ok h
    exact ⟨hr, hnm, hu⟩
  | opWithdraw c t =>
    simp only [step] at h
    obtain ⟨-, -, rfl⟩ := withdraw_ok h
    exact ⟨hr, hnm, hu⟩
  | opSetIdFloor c f =>
    simp only [step] at h
    obtain ⟨-, -, rfl⟩ := setIdFloor_ok h
    exact ⟨hr, hnm, hu⟩
  | opRevokeId c tid =>
    simp only [step] at h
    obtain ⟨-, -, rfl⟩ := revokeId_ok h
    refine ⟨?_, hnm, hu⟩
    show upd s.revokedIds tid true id = true
    unfold upd
    split
    · rfl
    · exact hr
  | opMintAuthorized c r tid uri =>
    simp only [step] at h
    obtain ⟨-, hv, hm⟩ := mintAuthorized_ok h
    obtain ⟨-, -, -, rfl⟩ := _mint_ok hm
    have htid : tid ≠ id := by
      intro he
      subst he
      have hvs := (vacant_iff s tid).mp hv
      rw [hvs.2.1] at hr
      exact Bool.noConfusion hr
    refine ⟨hr, ?_, ?_⟩
    · intro hmem
      rcases Finset.mem_insert.mp hmem with he | hm2
      · exact htid he.symm
      · exact hnm hm2
    · show upd s.tokenURIs tid uri id = ""
      unfold upd
      rw [if_neg (fun he => htid he.symm)]
      exact hu
  | opMint c v tid uri sig =>
    simp only [step] at h
    obtain ⟨hma, hm⟩ := mint_ok h
    obtain ⟨-, hv, -⟩ := mintable_ok hma
    obtain ⟨-, -, -, rfl⟩ := _mint_ok hm
    have htid : tid ≠ id := by
      intro he
      subst he
      have hvs := (vacant_iff s tid).mp hv
      rw [hvs.2.1] at hr
      exact Bool.noConfusion hr
    refine ⟨hr, ?_, ?_⟩
    · intro hmem
      rcases Finset.mem_insert.mp hmem with he | hm2
      · exact htid he.symm
      · exact hnm hm2
    · show upd s.tokenURIs tid uri id = ""
      unfold upd
      rw [if_neg (fun he => htid he.symm)]
      exact hu
  | opBurn c tid =>
    simp only [step] at h
    obtain ⟨hmem, -, hb⟩ := burn_ok h
    obtain ⟨-, -, rfl⟩ := _burn_ok hb
    refine ⟨?_, ?_, ?_⟩
    · show upd s.revokedIds tid true id = true
      unfold upd
      split
      · rfl
      · exact hr
    · intro hmem2
      exact hnm (Finset.mem_of_mem_erase hmem2)
    · show upd s.tokenURIs tid "" id = ""
      unfold upd
      split
      · rfl
      · exact hu

theorem stepOk_dead (recover : Recover) (s : State) (op : Op) (id : Nat)
    (hd : Dead s id) : Dead (stepOk recover s op) id := by
  unfold stepOk
  cases hstep : step recover s op with
  | error e => exact hd
  | ok s1 => exact step_dead hstep id hd

theorem run_dead (recover : Recover) (ops : List Op) (s : State) (id : Nat)
    (hd : Dead s id) : Dead (run recover s ops) id := by
  induction ops generalizing s with
  | nil => exact hd
  | cons op ops ih => exact ih _ (stepOk_dead recover s op id hd)

/-- A successful burn leaves the burnt id revoked, unclaimed, with the empty uri. -/
theorem burn_dead {s : State} {c id : Nat} {s1 : State} (h : burn s c id = .ok s1) :
    Dead s1 id := by
  obtain ⟨hmem, -, hb⟩ := burn_ok h
  obtain ⟨-, -, rfl⟩ := _burn_ok hb
  refine ⟨?_, ?_, ?_⟩
  · show upd s.revokedIds id true id = true
    unfold upd
    rw [if_pos rfl]
  · exact fun hm => (Finset.mem_erase.mp hm).1 rfl
  · show upd s.tokenURIs id "" id = ""
    unfold upd
    rw [if_pos rfl]

theorem _mint_empty_uri {s : State} {r id : Nat} (hnm : id ∉ s.minted) :
    _mint s r id "" = .error "tokenURI cannot be empty" := by
  unfold _mint _safeMint _setTokenURI _exists
  simp [hnm]

theorem mintAuthorized_empty_uri {s : State} {recipient id : Nat}
    (hv : vacant s id = .ok true) :
    mintAuthorized s s.owner recipient id "" = .error "tokenURI cannot be empty" := by
  have hnm := ((vacant_iff s id).mp hv).1
  unfold mintAuthorized
  rw [if_neg (fun hne => hne rfl), hv]
  exact _mint_empty_uri hnm

theorem mint_empty_uri {recover : Recover} {s : State} {caller msgValue id signature : Nat}
    (hv : vacant s id = .ok true) (hs : s.owner = recover msgValue id "" signature) :
    mint recover s caller msgValue id "" signature = .error "tokenURI cannot be empty" := by
  have hnm := ((vacant_iff s id).mp hv).1
  unfold mint mintable
  rw [hv, if_pos hs]
  exact _mint_empty_uri hnm

theorem mint_err_sig {recover : Recover} {s : State} {caller msgValue id : Nat}
    {uri : String} {signature : Nat}
    (hv : vacant s id = .ok true) (hs : s.owner ≠ recover msgValue id uri signature) :
    mint recover s caller msgValue id uri signature
      = .error "signature invalid or signer unauthorized" := by
  unfold mint mintable
  rw [hv, if_neg hs]

/-! ## The claims -/

/-- C1: `vacant` succeeds (returning true) iff the id is not claimed, not revoked,
and at or above the floor; each violated condition fails with its own
distinguishing reason: already claimed, below floor, or revoked. -/
theorem C1_availability (s : State) (id : Nat) :
    (vacant s id = .ok true ↔ id ∉ s.minted ∧ s.revokedIds id = false ∧ s.idFloor ≤ id)
    ∧ (id ∈ s.minted → vacant s id = .error "tokenId already minted")
    ∧ (id ∉ s.minted → id < s.idFloor → vacant s id = .error "tokenId below floor")
    ∧ (id ∉ s.minted → s.idFloor ≤ id → s.revokedIds id = true →
        vacant s id = .error "tokenId revoked or burnt") :=
  ⟨vacant_iff s id, fun h => vacant_err_minted h,
   fun h1 h2 => vacant_err_floor h1 h2, fun h1 h2 h3 => vacant_err_revoked h1 h2 h3⟩

/-- Witness for C1 at concrete states: a minted id, an id below the floor, a revoked
id, and a fully available id. -/
theorem C1_availability_witness :
    vacant { initState 1 with minted := {3} } 3 = .error "tokenId already minted"
    ∧ vacant { initState 1 with idFloor := 10 } 3 = .error "tokenId below floor"
    ∧ vacant { initState 1 with revokedIds := upd (initState 1).revokedIds 3 true } 3
        = .error "tokenId revoked or burnt"
    ∧ vacant (initState 1) 3 = .ok true :=
  ⟨(C1_availability _ 3).2.1 (by decide),
   (C1_availability _ 3).2.2.1 (by decide) (by decide),
   (C1_availability _ 3).2.2.2 (by decide) (by decide) (by rfl),
   (C1_availability _ 3).1.mpr ⟨by decide, rfl, by decide⟩⟩

/-- C2: in `mintable` and `mint`, availability is checked strictly before signature
recovery — whenever `vacant` fails, both fail with exactly the availability reason,
for every recovery function and signature; in particular any signature (valid ones
included) presented after the id is claimed fails with "tokenId already minted",
not with the signature reason; and mutation happens only after both checks — a
successful `mint` implies `vacant` succeeded and the recovered signer is the owner. -/
theorem C2_check_order (recover : Recover) (s : State) (caller msgValue weiPrice id : Nat)
    (uri : String) (signature : Nat) :
    (∀ e, vacant s id = .error e →
        mintable recover s weiPrice id uri signature = .error e
        ∧ mint recover s caller msgValue id uri signature = .error e)
    ∧ (id ∈ s.minted →
        mintable recover s weiPrice id uri signature = .error "tokenId already minted"
        ∧ mint recover s caller msgValue id uri signature
            = .error "tokenId already minted")
    ∧ (∀ s1, mint recover s caller msgValue id uri signature = .ok s1 →
        vacant s id = .ok true ∧ s.owner = recover msgValue id uri signature) := by
  refine ⟨fun e he => ⟨mintable_err_of_vacant he, mint_err_of_vacant he⟩, ?_, ?_⟩
  · intro hm
    have he := vacant_err_minted (s := s) hm
    exact ⟨mintable_err_of_vacant he, mint_err_of_vacant he⟩
  · intro s1 h
    obtain ⟨hma, -⟩ := mint_ok h
    obtain ⟨-, hv, hs⟩ := mintable_ok hma
    exact ⟨hv, hs⟩

/-- Witness for C2: after a successful lazy mint of id 5, replaying the very same
call fails with the availability reason, not the signature reason. -/
theorem C2_check_order_witness :
    mint recover1 (stepOk recover1 (initState 1) (Op.opMint 2 0 5 "u" 7)) 2 0 5 "u" 7
      = .error "tokenId already minted" :=
  ((C2_check_order recover1 _ 2 0 0 5 "u" 7).2.1 (by decide)).2

/-- C3: after any sequence of calls from a fresh deployment, `totalSupply` equals
the number of currently claimed ids (in particular it can never go below zero);
every successful issuance — direct or signed — increments it by exactly 1 and every
successful burn decrements it by exactly 1, while the other operations leave it
unchanged. -/
theorem C3_supply (recover : Recover) (d : Nat) (ops : List Op) (s : State) :
    ((run recover (initState d) ops).totalSupply
      = (run recover (initState d) ops).minted.card)
    ∧ (∀ c r id uri s1, step recover s (.opMintAuthorized c r id uri) = .ok s1 →
        s1.totalSupply = s.totalSupply + 1)
    ∧ (∀ c v id uri sig s1, step recover s (.opMint c v id uri sig) = .ok s1 →
        s1.totalSupply = s.totalSupply + 1)
    ∧ (∀ c id s1, step recover s (.opBurn c id) = .ok s1 →
        s.totalSupply = s1.totalSupply + 1)
    ∧ (∀ c id s1, step recover s (.opRevokeId c id) = .ok s1 →
        s1.totalSupply = s.totalSupply)
    ∧ (∀ c f s1, step recover s (.opSetIdFloor c f) = .ok s1 →
        s1.totalSupply = s.totalSupply) := by
  refine ⟨(run_inv recover ops _ (initState_inv d)).1, ?_, ?_, ?_, ?_, ?_⟩
  · intro c r id uri s1 h
    simp only [step] at h
    obtain ⟨-, -, hm⟩ := mintAuthorized_ok h
    obtain ⟨-, -, -, rfl⟩ := _mint_ok hm
    rfl
  · intro c v id uri sig s1 h
    simp only [step] at h
    obtain ⟨-, hm⟩ := mint_ok h
    obtain ⟨-, -, -, rfl⟩ := _mint_ok hm
    rfl
  · intro c id s1 h
    simp only [step] at h
    obtain ⟨-, -, hb⟩ := burn_ok h
    obtain ⟨hmem, hne, rfl⟩ := _burn_ok hb
    show s.totalSupply = s.totalSupply - 1 + 1
    omega
  · intro c id s1 h
    simp only [step] at h
    obtain ⟨-, -, rfl⟩ := revokeId_ok h
    rfl
  · intro c f s1 h
    simp only [step] at h
    obtain ⟨-, -, rfl⟩ := setIdFloor_ok h
    rfl

/-- Witness for C3: a mint followed by a burn keeps supply equal to the claimed
count, and a concrete successful mint increments supply by exactly 1. -/
theorem C3_supply_witness :
    ((run recover1 (initState 1) [Op.opMintAuthorized 1 2 5 "u", Op.opBurn 2 5]).totalSupply
      = (run recover1 (initState 1)
          [Op.opMintAuthorized 1 2 5 "u", Op.opBurn 2 5]).minted.card)
    ∧ (stepOk recover1 (initState 1) (Op.opMintAuthorized 1 2 5 "u")).totalSupply
        = (initState 1).totalSupply + 1 :=
  ⟨(C3_supply recover1 1 [Op.opMintAuthorized 1 2 5 "u", Op.opBurn 2 5] (initState 1)).1,
   (C3_supply recover1 1 [] (initState 1)).2.1 1 2 5 "u" _ (by rfl)⟩

/-- C4: once an id's revoked flag is true it stays true along every sequence of
calls, and in every such later state the id fails the availability check. -/
theorem C4_revoked_monotone (recover : Recover) (s : State) (id : Nat)
    (hr : s.revokedIds id = true) :
    (∀ ops, (run recover s ops).revokedIds id = true)
    ∧ ∀ ops, ∃ e, vacant (run recover s ops) id = .error e :=
  ⟨fun ops => run_revoked_mono recover ops s id hr,
   fun ops => vacant_err_of_revoked (run_revoked_mono recover ops s id hr)⟩

/-- Witness for C4: id 3 revoked by the owner stays revoked and unavailable after a
further attempted mint of it. -/
theorem C4_revoked_monotone_witness :
    ((run recover1 (stepOk recover1 (initState 1) (Op.opRevokeId 1 3))
        [Op.opMint 2 0 3 "u" 7]).revokedIds 3 = true)
    ∧ ∃ e, vacant (run recover1 (stepOk recover1 (initState 1) (Op.opRevokeId 1 3))
        [Op.opMint 2 0 3 "u" 7]) 3 = .error e :=
  ⟨(C4_revoked_monotone recover1 _ 3 (by rfl)).1 [Op.opMint 2 0 3 "u" 7],
   (C4_revoked_monotone recover1 _ 3 (by rfl)).2 [Op.opMint 2 0 3 "u" 7]⟩

/-- C5: `setIdFloor` succeeds exactly when the caller is the owner and the new
value strictly exceeds the current floor, in which case the stored floor becomes
the new value (and nothing else changes); a non-owner fails with the authorization
reason and a non-increasing value fails with the monotonicity reason, any failure
leaving the state unchanged; and the floor never decreases under any call. -/
theorem C5_setIdFloor (recover : Recover) (s : State) (caller floor : Nat) :
    ((∃ s1, setIdFloor s caller floor = .ok s1) ↔ caller = s.owner ∧ s.idFloor < floor)
    ∧ (∀ s1, setIdFloor s caller floor = .ok s1 → s1 = { s with idFloor := floor })
    ∧ (caller ≠ s.owner →
        setIdFloor s caller floor = .error "unauthorized to set idFloor")
    ∧ (caller = s.owner → floor ≤ s.idFloor →
        setIdFloor s caller floor = .error "must exceed current floor")
    ∧ (∀ e, setIdFloor s caller floor = .error e →
        stepOk recover s (.opSetIdFloor caller floor) = s)
    ∧ (∀ op, s.idFloor ≤ (stepOk recover s op).idFloor) := by
  refine ⟨⟨?_, ?_⟩, ?_, ?_, ?_, ?_, fun op => stepOk_idFloor_mono recover s op⟩
  · rintro ⟨s1, h⟩
    obtain ⟨h1, h2, -⟩ := setIdFloor_ok h
    exact ⟨h1, h2⟩
  · rintro ⟨h1, h2⟩
    refine ⟨{ s with idFloor := floor }, ?_⟩
    unfold setIdFloor
    rw [if_neg (fun hne => hne h1), if_pos h2]
  · intro s1 h
    exact (setIdFloor_ok h).2.2
  · intro h
    unfold setIdFloor
    rw [if_pos h]
  · intro h1 h2
    unfold setIdFloor
    rw [if_neg (fun hne => hne h1), if_neg (by omega)]
  · intro e he
    have hs : step recover s (Op.opSetIdFloor caller floor) = .error e := he
    exact stepOk_of_error hs

/-- Witness for C5 at concrete inputs: a non-owner caller, a non-increasing value,
a successful raise, and a failed call leaving the state unchanged. -/
theorem C5_setIdFloor_witness :
    setIdFloor (initState 1) 2 10 = .error "unauthorized to set idFloor"
    ∧ setIdFloor (initState 1) 1 0 = .error "must exceed current floor"
    ∧ (∃ s1, setIdFloor (initState 1) 1 10 = .ok s1)
    ∧ stepOk recover1 (initState 1) (Op.opSetIdFloor 2 10) = initState 1 :=
  ⟨(C5_setIdFloor recover1 (initState 1) 2 10).2.2.1 (by decide),
   (C5_setIdFloor recover1 (initState 1) 1 0).2.2.2.1 rfl (by decide),
   (C5_setIdFloor recover1 (initState 1) 1 10).1.mpr ⟨rfl, by decide⟩,
   (C5_setIdFloor recover1 (initState 1) 2 10).2.2.2.2.1 _
     ((C5_setIdFloor recover1 (initState 1) 2 10).2.2.1 (by decide))⟩

/-- C6: contrary to the spec, a successful `revokeId` and a successful `setIdFloor`
append no notification event: the source invokes `IdRevoked(id)` (line 112) and
`IdFloorSet(idFloor)` (line 123) without the `emit` keyword, which Solidity ^0.8.0
does not accept as an event emission; on a fresh deployment the owner's
`revokeId(5)` and `setIdFloor(10)` both succeed with the event log still empty. -/
theorem C6_no_events :
    (∃ s1, revokeId (initState 1) 1 5 = .ok s1 ∧ s1.events = [])
    ∧ (∃ s1, setIdFloor (initState 1) 1 10 = .ok s1 ∧ s1.events = []) :=
  ⟨⟨_, rfl, rfl⟩, ⟨_, rfl, rfl⟩⟩

/-- C7: a successful floor raise writes no per-identifier state — the claimed set,
holder map, revoked flags and uri mapping are unchanged — yet afterwards every
unclaimed, unrevoked id below the new floor fails the availability check with the
below-floor reason, while every unclaimed, unrevoked id at or above it passes. -/
theorem C7_floor_frame (s : State) (caller floor : Nat) (s1 : State)
    (h : setIdFloor s caller floor = .ok s1) :
    s1.minted = s.minted ∧ s1.holder = s.holder ∧ s1.revokedIds = s.revokedIds
    ∧ s1.tokenURIs = s.tokenURIs
    ∧ (∀ id, id ∉ s.minted → s.revokedIds id = false → id < floor →
        vacant s1 id = .error "tokenId below floor")
    ∧ (∀ id, id ∉ s.minted → s.revokedIds id = false → floor ≤ id →
        vacant s1 id = .ok true) := by
  obtain ⟨-, -, rfl⟩ := setIdFloor_ok h
  refine ⟨rfl, rfl, rfl, rfl, ?_, ?_⟩
  · intro id h1 h2 h3
    exact vacant_err_floor h1 h3
  · intro id h1 h2 h3
    exact (vacant_iff _ id).mpr ⟨h1, h2, h3⟩

/-- Witness for C7: raising the floor to 10 on a fresh deployment makes id 3 fail
availability with the below-floor reason while id 12 stays available. -/
theorem C7_floor_frame_witness :
    vacant { initState 1 with idFloor := 10 } 3 = .error "tokenId below floor"
    ∧ vacant { initState 1 with idFloor := 10 } 12 = .ok true :=
  ⟨(C7_floor_frame (initState 1) 1 10 _ rfl).2.2.2.2.1 3 (by decide) rfl (by decide),
   (C7_floor_frame (initState 1) 1 10 _ rfl).2.2.2.2.2 12 (by decide) rfl (by decide)⟩

/-- C8: for an available id, issuance with an empty metadata pointer fails with the
data reason — directly for the owner, and on the signed path whenever the signature
recovers the owner — and the reverted call leaves the entire state unchanged
(whatever the signature), so nothing is claimed, no uri stored, no supply change. -/
theorem C8_empty_uri (recover : Recover) (s : State)
    (caller recipient id msgValue signature : Nat)
    (hv : vacant s id = .ok true) :
    mintAuthorized s s.owner recipient id "" = .error "tokenURI cannot be empty"
    ∧ (s.owner = recover msgValue id "" signature →
        mint recover s caller msgValue id "" signature
          = .error "tokenURI cannot be empty")
    ∧ stepOk recover s (.opMintAuthorized s.owner recipient id "") = s
    ∧ stepOk recover s (.opMint caller msgValue id "" signature) = s := by
  refine ⟨mintAuthorized_empty_uri hv, fun hs => mint_empty_uri hv hs, ?_, ?_⟩
  · have hs : step recover s (Op.opMintAuthorized s.owner recipient id "")
        = .error "tokenURI cannot be empty" := mintAuthorized_empty_uri hv
    exact stepOk_of_error hs
  · by_cases hsig : s.owner = recover msgValue id "" signature
    · have hs : step recover s (Op.opMint caller msgValue id "" signature)
          = .error "tokenURI cannot be empty" := mint_empty_uri hv hsig
      exact stepOk_of_error hs
    · have hs : step recover s (Op.opMint caller msgValue id "" signature)
          = .error "signature invalid or signer unauthorized" := mint_err_sig hv hsig
      exact stepOk_of_error hs

/-- Witness for C8: on a fresh deployment, both issuance paths with an empty uri
fail with the data reason and leave the state unchanged. -/
theorem C8_empty_uri_witness :
    mintAuthorized (initState 1) 1 2 5 "" = .error "tokenURI cannot be empty"
    ∧ mint recover1 (initState 1) 2 0 5 "" 7 = .error "tokenURI cannot be empty"
    ∧ stepOk recover1 (initState 1) (Op.opMint 2 0 5 "" 7) = initState 1 :=
  ⟨(C8_empty_uri recover1 (initState 1) 2 2 5 0 7 (by rfl)).1,
   (C8_empty_uri recover1 (initState 1) 2 2 5 0 7 (by rfl)).2.1 rfl,
   (C8_empty_uri recover1 (initState 1) 2 2 5 0 7 (by rfl)).2.2.2⟩

/-- C9: withdrawal by a non-owner fails with the authorization reason; any failed
withdrawal leaves the state — hence the balance — unchanged; withdrawal by the
owner with a succeeding transfer empties the balance to exactly 0 and appends a
`Withdrawal` event carrying the withdrawn amount; a failing underlying transfer
makes the whole call fail with the transfer reason. -/
theorem C9_withdraw (recover : Recover) (s : State) (caller : Nat) (transferOk : Bool) :
    (caller ≠ s.owner → withdraw s caller transferOk = .error "unauthorized to withdraw")
    ∧ (∀ e, withdraw s caller transferOk = .error e →
        stepOk recover s (.opWithdraw caller transferOk) = s)
    ∧ (withdraw s s.owner true
        = .ok { s with balance := 0, events := s.events ++ [Event.Withdrawal s.balance] })
    ∧ (withdraw s s.owner false = .error "transfer failed")
    ∧ (∀ s1, withdraw s caller transferOk = .ok s1 →
        caller = s.owner ∧ transferOk = true ∧ s1.balance = 0
        ∧ s1.events = s.events ++ [Event.Withdrawal s.balance]) := by
  refine ⟨?_, ?_, ?_, ?_, ?_⟩
  · intro h
    unfold withdraw
    rw [if_pos h]
  · intro e he
    have hs : step recover s (Op.opWithdraw caller transferOk) = .error e := he
    exact stepOk_of_error hs
  · unfold withdraw
    rw [if_neg (fun hne => hne rfl), if_pos rfl]
  · unfold withdraw
    rw [if_neg (fun hne => hne rfl), if_neg Bool.false_ne_true]
  · intro s1 h
    obtain ⟨h1, h2, rfl⟩ := withdraw_ok h
    exact ⟨h1, h2, rfl, rfl⟩

/-- Witness for C9: with a balance of 42, a non-owner withdrawal fails leaving the
state unchanged, the owner's withdrawal with a failing transfer fails, and the
owner's withdrawal with a succeeding transfer empties the balance. -/
theorem C9_withdraw_witness :
    withdraw { initState 1 with balance := 42 } 2 true
      = .error "unauthorized to withdraw"
    ∧ withdraw { initState 1 with balance := 42 } 1 false = .error "transfer failed"
    ∧ stepOk recover1 { initState 1 with balance := 42 } (Op.opWithdraw 2 true)
        = { initState 1 with balance := 42 }
    ∧ withdraw { initState 1 with balance := 42 } 1 true
        = .ok { initState 1 with balance := 0, events := [Event.Withdrawal 42] } :=
  ⟨(C9_withdraw recover1 { initState 1 with balance := 42 } 2 true).1 (by decide),
   (C9_withdraw recover1 { initState 1 with balance := 42 } 1 false).2.2.2.1,
   (C9_withdraw recover1 { initState 1 with balance := 42 } 2 true).2.1 _
     ((C9_withdraw recover1 { initState 1 with balance := 42 } 2 true).1 (by decide)),
   (C9_withdraw recover1 { initState 1 with balance := 42 } 1 true).2.2.1⟩

/-- C10: the metadata lookup `tokenURI` is total (it is a plain mapping read that
cannot fail); after any sequence of calls from a fresh deployment it returns the
empty string on every id not currently claimed — never issued or issued and later
burnt — and once an id is burnt it returns the empty string in every later state. -/
theorem C10_tokenURI (recover : Recover) (d : Nat) (ops : List Op) :
    (∀ id, id ∉ (run recover (initState d) ops).minted →
        tokenURI (run recover (initState d) ops) id = "")
    ∧ (∀ s c id s1, burn s c id = .ok s1 →
        ∀ more, tokenURI (run recover s1 more) id = "") :=
  ⟨fun id h => (run_inv recover ops _ (initState_inv d)).2 id h,
   fun _ _ id s1 h more => (run_dead recover more s1 id (burn_dead h)).2.2⟩

/-- Witness for C10: after minting id 5 and burning it, `tokenURI` returns the
empty string for the burnt id 5 and for the never-issued id 7. -/
theorem C10_tokenURI_witness :
    tokenURI (run recover1 (initState 1)
      [Op.opMintAuthorized 1 2 5 "u", Op.opBurn 2 5]) 5 = ""
    ∧ tokenURI (run recover1 (initState 1)
        [Op.opMintAuthorized 1 2 5 "u", Op.opBurn 2 5]) 7 = ""
    ∧ tokenURI (run recover1 (stepOk recover1
        (stepOk recover1 (initState 1) (Op.opMintAuthorized 1 2 5 "u"))
        (Op.opBurn 2 5)) []) 5 = "" :=
  ⟨(C10_tokenURI recover1 1 [Op.opMintAuthorized 1 2 5 "u", Op.opBurn 2 5]).1 5 (by decide),
   (C10_tokenURI recover1 1 [Op.opMintAuthorized 1 2 5 "u", Op.opBurn 2 5]).1 7 (by decide),
   (C10_tokenURI recover1 1 []).2
     (stepOk recover1 (initState 1) (Op.opMintAuthorized 1 2 5 "u")) 2 5 _ (by rfl) []⟩

end NFTagent
